import Mathlib

/-!
Formal model of the schedule/realtime reconciliation engine of the MTA GTFS
server (`src/server/src/mcp/services/gtfs-service.ts`,
`src/server/src/gtfs/realtime.ts`, `src/server/src/mcp/utils/timezone.ts`).

Modelling conventions:
* JavaScript strings are Lean `String`s; JS string comparison (`<`, `>=`,
  `localeCompare` on digit/colon strings) is code-point lexicographic order,
  implemented structurally on `String.data` so that concrete instances reduce.
* JS numbers that the code produces with `parseInt` on well-formed integer
  fields (stop sequences, shape point sequences) are `Int`; values produced by
  `parseFloat` on well-formed decimal fields (cumulative distances) are `ℚ`;
  epoch timestamps are `Int` seconds (or milliseconds where the source uses
  milliseconds).
* Optional/undefined values are `Option`; JS truthiness of a number is
  `≠ 0`, of a string is non-emptiness.
* The host time zone (used implicitly by `Date` methods called without a
  `timeZone` option) is modelled as a fixed offset `H` in seconds added to an
  epoch instant to obtain host-local wall-clock fields; the
  `America/New_York` offset at the instant of interest is likewise a fixed
  offset `E`.  Stateful caches are explicit state-passing; network fetches are
  `Except`-valued parameters.
-/

namespace MtaGtfs

/-- Strict code-point lexicographic order on character lists: the semantics of
the JavaScript `<` operator on strings. -/
def charListLt : List Char → List Char → Bool
  | [], [] => false
  | [], _ :: _ => true
  | _ :: _, [] => false
  | a :: as, b :: bs =>
    if a.toNat < b.toNat then true
    else if b.toNat < a.toNat then false
    else charListLt as bs

/-- Non-strict code-point lexicographic order on character lists: the
semantics of the JavaScript `<=`/`>=` operators on strings, and of
`localeCompare` restricted to the digit/colon strings compared here. -/
def charListLe : List Char → List Char → Bool
  | [], _ => true
  | _ :: _, [] => false
  | a :: as, b :: bs =>
    if a.toNat < b.toNat then true
    else if a.toNat = b.toNat then charListLe as bs
    else false

/-- JavaScript `a < b` on strings. -/
def strLtB (a b : String) : Bool := charListLt a.data b.data

/-- JavaScript `a <= b` on strings. -/
def strLeB (a b : String) : Bool := charListLe a.data b.data

/-- JavaScript `===` on strings. -/
def strEqB (a b : String) : Bool := a.data == b.data

/-- JavaScript `s.endsWith(t)`. -/
def strEndsWith (s t : String) : Bool := t.data.isSuffixOf s.data

/-- JavaScript `s.toLowerCase()` (ASCII range, which is all the source data
uses). -/
def lowerStr (s : String) : String := ⟨s.data.map Char.toLower⟩

theorem strEqB_iff (a b : String) : strEqB a b = true ↔ a = b := by
  unfold strEqB
  rw [beq_iff_eq]
  constructor
  · intro h
    cases a; cases b; exact congrArg String.mk (by simpa using h)
  · intro h; rw [h]

theorem strEndsWith_iff (s t : String) :
    strEndsWith s t = true ↔ t.data <:+ s.data := by
  unfold strEndsWith
  exact List.isSuffixOf_iff_suffix

theorem charListLe_total : ∀ a b : List Char,
    charListLe a b = true ∨ charListLe b a = true := by
  intro a
  induction a with
  | nil => intro b; left; rfl
  | cons x xs ih =>
    intro b
    cases b with
    | nil => right; rfl
    | cons y ys =>
      rcases Nat.lt_trichotomy x.toNat y.toNat with hlt | heq | hgt
      · left; simp [charListLe, hlt]
      · rcases ih ys with h | h
        · left; simp [charListLe, heq, Nat.lt_irrefl, h]
        · right; simp [charListLe, heq.symm, Nat.lt_irrefl, h]
      · right; simp [charListLe, hgt]

theorem charListLe_trans : ∀ a b c : List Char,
    charListLe a b = true → charListLe b c = true → charListLe a c = true := by
  intro a
  induction a with
  | nil => intro b c _ _; rfl
  | cons x xs ih =>
    intro b c hab hbc
    cases b with
    | nil => simp [charListLe] at hab
    | cons y ys =>
      cases c with
      | nil => simp [charListLe] at hbc
      | cons z zs =>
        simp only [charListLe] at hab hbc ⊢
        by_cases hxy : x.toNat < y.toNat
        · by_cases hyz : y.toNat < z.toNat
          · have : x.toNat < z.toNat := Nat.lt_trans hxy hyz
            simp [this]
          · simp only [hyz, if_false] at hbc
            by_cases hyz2 : y.toNat = z.toNat
            · have : x.toNat < z.toNat := hyz2 ▸ hxy
              simp [this]
            · simp [hyz2] at hbc
        · simp only [hxy, if_false] at hab
          by_cases hxy2 : x.toNat = y.toNat
          · simp only [hxy2, if_true] at hab
            by_cases hyz : y.toNat < z.toNat
            · have : x.toNat < z.toNat := hxy2 ▸ hyz
              simp [this]
            · simp only [hyz, if_false] at hbc
              by_cases hyz2 : y.toNat = z.toNat
              · have hxz : x.toNat = z.toNat := hxy2.trans hyz2
                simp only [hyz2, if_true] at hbc
                have hlt : ¬ x.toNat < z.toNat := by omega
                simp [hlt, hxz, ih _ _ hab hbc]
              · simp [hyz2] at hbc
          · simp [hxy2] at hab

/-! Static data model, after `src/server/src/gtfs/types.ts`.  All fields the
source keeps as CSV text stay `String`; `stop_sequence` is kept as the integer
that every use site immediately produces via `parseInt`, and
`shape_distance_traveled` as the rational that `parseFloat` produces from a
present numeric field (`none` = absent/empty field). -/

structure Agency where
  agency_name : String
  agency_url : String
deriving DecidableEq

structure Route where
  route_id : String
  route_short_name : String
  route_long_name : String
  route_type : String
  route_color : Option String
  route_text_color : Option String
deriving DecidableEq

structure Stop where
  stop_id : String
  stop_code : Option String
  stop_name : String
  stop_lat : String
  stop_lon : String
  parent_station : Option String
  platform_code : Option String
deriving DecidableEq

structure Trip where
  route_id : String
  service_id : String
  trip_id : String
  trip_headsign : Option String
  direction_id : Option String
  shape_id : Option String
deriving DecidableEq

structure StopTime where
  trip_id : String
  arrival_time : String
  departure_time : String
  stop_id : String
  stop_sequence : Int
  shape_distance_traveled : Option ℚ
deriving DecidableEq

structure Calendar where
  service_id : String
  monday : String
  tuesday : String
  wednesday : String
  thursday : String
  friday : String
  saturday : String
  sunday : String
  start_date : String
  end_date : String
deriving DecidableEq

structure Shape where
  shape_id : String
  shape_pt_lat : String
  shape_pt_lon : String
  shape_pt_sequence : Int
  shape_dist_traveled : Option String
deriving DecidableEq

structure GTFSData where
  agencies : List Agency
  routes : List Route
  stops : List Stop
  trips : List Trip
  stopTimes : List StopTime
  calendar : List Calendar
  shapes : List Shape
deriving DecidableEq

/-! Live feed model, after the generated GTFS-realtime protobuf bindings as
used by `realtime.ts` and `gtfs-service.ts`: every proto field is optional;
`time` is epoch seconds, `delay` is seconds. -/

structure StopTimeEvent where
  time : Option Int
  delay : Option Int
deriving DecidableEq

structure StopTimeUpdate where
  stopSequence : Option Int
  stopId : Option String
  arrival : Option StopTimeEvent
  departure : Option StopTimeEvent
deriving DecidableEq

structure TripDescriptor where
  tripId : Option String
deriving DecidableEq

structure TripUpdate where
  trip : Option TripDescriptor
  stopTimeUpdate : Option (List StopTimeUpdate)
  delay : Option Int
deriving DecidableEq

structure GTFSRealtimeData where
  trip_updates : List TripUpdate
  last_updated : Int
deriving DecidableEq

/-! Refresh cache, after `GTFSService.ensureGTFSData` / `ensureRealtimeData`
(`gtfs-service.ts` lines 15-31).  The mutable fields `gtfsData`/`lastDataLoad`
(resp. `realtimeData`/`lastRealtimeUpdate`) become an explicit `CacheState`;
the external loader result for this call is passed as `loadResult`; times are
epoch milliseconds. -/

structure CacheState (α : Type) where
  data : Option α
  lastLoad : Int
deriving DecidableEq

def CACHE_DURATION : Int := 5 * 60 * 1000

def REALTIME_CACHE_DURATION : Int := 30 * 1000

/-- Shared body of the two cache accessors: reload iff no snapshot is cached
or `now - lastLoad > ttl`, mirroring
`if (!this.gtfsData || now - this.lastDataLoad > this.CACHE_DURATION)`. -/
def ensureCached {α : Type} (ttl nowMs : Int) (loadResult : α)
    (st : CacheState α) : α × CacheState α :=
  match st.data with
  | none => (loadResult, ⟨some loadResult, nowMs⟩)
  | some d =>
    if nowMs - st.lastLoad > ttl then (loadResult, ⟨some loadResult, nowMs⟩)
    else (d, st)

def ensureGTFSData (nowMs : Int) (loadResult : GTFSData)
    (st : CacheState GTFSData) : GTFSData × CacheState GTFSData :=
  ensureCached CACHE_DURATION nowMs loadResult st

def ensureRealtimeData (nowMs : Int) (loadResult : GTFSRealtimeData)
    (st : CacheState GTFSRealtimeData) :
    GTFSRealtimeData × CacheState GTFSRealtimeData :=
  ensureCached REALTIME_CACHE_DURATION nowMs loadResult st

/-! Live loader, after `fetchGTFSRealtimeData` (`realtime.ts` lines 16-51).
The network fetch and the protobuf decode are external collaborators; their
outcomes for this call are passed in as `Except` values (`.error` = thrown
rejection), and the `try/catch` around the body becomes explicit matching. -/

structure HttpResponse (β : Type) where
  ok : Bool
  buffer : β

structure FeedHeader where
  timestamp : Option Int

structure FeedEntity where
  tripUpdate : Option TripUpdate

structure FeedMessage where
  header : Option FeedHeader
  entity : Option (List FeedEntity)

def fetchGTFSRealtimeData {β : Type} (nowMs : Int)
    (fetchResult : Except Unit (HttpResponse β))
    (decodeFeed : β → Except Unit FeedMessage) : GTFSRealtimeData :=
  match fetchResult with
  | .error _ => ⟨[], nowMs⟩
  | .ok resp =>
    if resp.ok = false then ⟨[], nowMs⟩
    else
      match decodeFeed resp.buffer with
      | .error _ => ⟨[], nowMs⟩
      | .ok fm =>
        let tripUpdates :=
          match fm.entity with
          | some es => es.filterMap (·.tripUpdate)
          | none => []
        ⟨tripUpdates,
         match fm.header with
         | some h =>
           match h.timestamp with
           | some ts => if ts ≠ 0 then ts * 1000 else nowMs
           | none => nowMs
         | none => nowMs⟩

/-! Identifier reconciliation, after the suffix-matching `find` repeated at
`gtfs-service.ts` lines 154-157, 209-212, 242-244, 294-296, and the
stop-update `find` at lines 160-162, 254-256, 306-308. -/

/-- The predicate of the trip-update scan:
`update.trip?.tripId && staticTripId.endsWith(update.trip.tripId)`. -/
def tripMatches (staticTripId : String) (u : TripUpdate) : Bool :=
  match u.trip with
  | some d =>
    match d.tripId with
    | some tid => !tid.data.isEmpty && strEndsWith staticTripId tid
    | none => false
  | none => false

/-- First live update whose short trip id is a truthy (non-empty) suffix of
the static trip id. -/
def findTripUpdate (staticTripId : String) (updates : List TripUpdate) :
    Option TripUpdate :=
  updates.find? (tripMatches staticTripId)

/-- Per-stop update match:
`stu.stopId === stopId || stu.stopSequence === parseInt(st.stop_sequence)`. -/
def findStopUpdate (updates : List StopTimeUpdate) (stopId : String)
    (stopSeq : Int) : Option StopTimeUpdate :=
  updates.find? (fun stu =>
    (match stu.stopId with
     | some sid => strEqB sid stopId
     | none => false)
    || stu.stopSequence == some stopSeq)

/-! Calendar date and wall-clock rendering.  `Date` semantics are modelled on
epoch arithmetic: an instant `t` (epoch seconds) shown in a zone of fixed
offset `off` (seconds east of UTC) has wall-clock fields of `t + off` read in
the proleptic Gregorian calendar. -/

/-- Left-pad a decimal rendering to two digits (the `2-digit` option of
`toLocaleTimeString`, and the month/day fields of `toISOString`). -/
def pad2 (n : Nat) : String := if n < 10 then "0" ++ Nat.repr n else Nat.repr n

/-- Render a four-digit year as `toISOString` does. -/
def pad4 (n : Nat) : String :=
  if n < 10 then "000" ++ Nat.repr n
  else if n < 100 then "00" ++ Nat.repr n
  else if n < 1000 then "0" ++ Nat.repr n
  else Nat.repr n

/-- Gregorian `(year, month, day)` of a days-since-1970-01-01 count
(standard civil-from-days computation). -/
def civilFromDays (z0 : Int) : Int × Nat × Nat :=
  let z := z0 + 719468
  let era := Int.fdiv z 146097
  let doe := (z - era * 146097).toNat
  let yoe := (doe - doe / 1460 + doe / 36524 - doe / 146096) / 365
  let doy := doe - (365 * yoe + yoe / 4 - yoe / 100)
  let mp := (5 * doy + 2) / 153
  let d := doy - (153 * mp + 2) / 5 + 1
  let m := if mp < 10 then mp + 3 else mp - 9
  let y := (yoe : Int) + era * 400 + (if m ≤ 2 then 1 else 0)
  (y, m, d)

/-- The `YYYYMMDD` string that `toISOString().slice(0, 10)` with the dashes
stripped produces for the UTC date falling on epoch day `day`. -/
def dateStrOfDay (day : Int) : String :=
  let c := civilFromDays day
  pad4 c.1.toNat ++ pad2 c.2.1 ++ pad2 c.2.2

/-- The `dayFields[dayOfWeek]` lookup of `isServiceActiveTodayEastern`
(0 = Sunday .. 6 = Saturday). -/
def dayFlag (c : Calendar) : Nat → String
  | 0 => c.sunday
  | 1 => c.monday
  | 2 => c.tuesday
  | 3 => c.wednesday
  | 4 => c.thursday
  | 5 => c.friday
  | 6 => c.saturday
  | _ => ""

/-- Model of `isServiceActiveTodayEastern` (`timezone.ts` lines 24-51) at
instant `t` (epoch seconds), Eastern offset `E` and host offset `H` (seconds).
The source formats `now` as an Eastern wall-clock string and re-parses it with
`new Date(...)`, which interprets that string in the HOST zone: the resulting
`Date` holds the instant `t + E - H`.  `getDay()` reads host-local fields of
that instant (wall clock `t + E`), while `toISOString()` reads its UTC fields
(wall clock `t + E - H`). -/
def isServiceActiveTodayEastern (t E H : Int) (c : Calendar) : Bool :=
  let reparsed := t + E - H
  let dayOfWeek := (Int.fmod (Int.fdiv (reparsed + H) 86400 + 4) 7).toNat
  let todayStr := dateStrOfDay (Int.fdiv reparsed 86400)
  if strLtB todayStr c.start_date || strLtB c.end_date todayStr then false
  else strEqB (dayFlag c dayOfWeek) "1"

/-- The `HH:MM` string `toLocaleTimeString("en-US", { hour12: false, hour:
"2-digit", minute: "2-digit" })` renders for epoch second `t` in a zone of
offset `off` (no `timeZone` option in the source, so `off` is the HOST
offset). -/
def jsLocalTimeHM (t off : Int) : String :=
  let s := (Int.fmod (t + off) 86400).toNat
  pad2 (s / 3600) ++ ":" ++ pad2 (s % 3600 / 60)

/-! Delay formatting and per-stop arrival estimation, after `realtime.ts`
lines 57-118. -/

/-- `formatDelay` (`realtime.ts` lines 57-68). -/
def formatDelay (delaySeconds : Int) : String :=
  if delaySeconds = 0 then "On time"
  else
    let minutes := delaySeconds.natAbs / 60
    let seconds := delaySeconds.natAbs % 60
    if delaySeconds > 0 then
      Nat.repr minutes ++ "m " ++ Nat.repr seconds ++ "s late"
    else
      Nat.repr minutes ++ "m " ++ Nat.repr seconds ++ "s early"

/-- Split a character list at a separator, as `String.prototype.split` with a
single-character separator does. -/
def splitCh (sep : Char) : List Char → List (List Char)
  | [] => [[]]
  | c :: rest =>
    let parts := splitCh sep rest
    if c = sep then [] :: parts
    else
      match parts with
      | p :: ps => (c :: p) :: ps
      | [] => [[c]]

/-- `Number(...)` on a field split out of a well-formed `HH:MM:SS` string:
the value of a non-empty all-digit string, `none` for anything that would be
`NaN`. -/
def parseNatDigits (cs : List Char) : Option Nat :=
  if cs.isEmpty then none
  else if cs.all Char.isDigit then
    some (cs.foldl (fun acc c => acc * 10 + (c.toNat - 48)) 0)
  else none

/-- Seconds since midnight of a scheduled `HH:MM:SS` string, via
`const [hours, minutes, seconds] = scheduledTime.split(":").map(Number)`;
`none` models the `NaN` outcome of a malformed string. -/
def parseHMS (s : String) : Option Int :=
  match splitCh ':' s.data with
  | h :: m :: sec :: _ =>
    match parseNatDigits h, parseNatDigits m, parseNatDigits sec with
    | some hh, some mm, some ss => some ((hh * 3600 + mm * 60 + ss : Nat) : Int)
    | _, _, _ => none
  | _ => none

/-- Result shape of `getRealtimeArrivalTime`. -/
structure RtEstimate where
  time : String
  delay : Option String
  isRealtime : Bool
deriving DecidableEq

/-- The `if (stopTimeUpdate.arrival.delay)` branch and the final fallback of
`getRealtimeArrivalTime`, reached when `arrival.time` is falsy. -/
def arrivalDelayBranch (scheduledTime : String) (arr : StopTimeEvent)
    (H : Int) : RtEstimate :=
  match arr.delay with
  | some d =>
    if d ≠ 0 then
      match parseHMS scheduledTime with
      | some secs => ⟨jsLocalTimeHM (secs + d) H, some (formatDelay d), true⟩
      | none => ⟨"Invalid Date", some (formatDelay d), true⟩
    else ⟨scheduledTime, none, false⟩
  | none => ⟨scheduledTime, none, false⟩

/-- Model of `getRealtimeArrivalTime` (`realtime.ts` lines 70-118) under host
offset `H`.  The source renders both realtime branches with
`toLocaleTimeString` WITHOUT a `timeZone` option, i.e. in the host zone; in
the delay-only branch the millisecond sum `scheduledMs + delay*1000` is fed to
`new Date(...)` as if it were an epoch instant. -/
def getRealtimeArrivalTime (scheduledTime : String)
    (stu : Option StopTimeUpdate) (H : Int) : RtEstimate :=
  match stu with
  | none => ⟨scheduledTime, none, false⟩
  | some u =>
    match u.arrival with
    | none => ⟨scheduledTime, none, false⟩
    | some arr =>
      match arr.time with
      | some t =>
        if t ≠ 0 then
          ⟨jsLocalTimeHM t H,
           match arr.delay with
           | some d => if d ≠ 0 then some (formatDelay d) else none
           | none => none,
           true⟩
        else arrivalDelayBranch scheduledTime arr H
      | none => arrivalDelayBranch scheduledTime arr H

/-! Query façade, after `gtfs-service.ts`.  JavaScript `Array.prototype.sort`
is stable and the comparators used are consistent with a total preorder, so
each sort is modelled as a stable insertion sort over the comparator's
non-strict order. -/

/-- `unixTimestampToEasternTime` (`timezone.ts` lines 9-17): `HH:MM:SS` of
epoch second `t` at Eastern offset `E`; also the shape of the
`currentTimeStr` the service builds from `new Date()` with
`timeZone: "America/New_York", hour12: false`. -/
def unixTimestampToEasternTime (t E : Int) : String :=
  let s := (Int.fmod (t + E) 86400).toNat
  pad2 (s / 3600) ++ ":" ++ pad2 (s % 3600 / 60) ++ ":" ++ pad2 (s % 60)

/-- Order of the comparator `(a, b) => parseInt(a.stop_sequence) -
parseInt(b.stop_sequence)`. -/
def seqLe (a b : StopTime) : Prop := a.stop_sequence ≤ b.stop_sequence

instance : DecidableRel seqLe := fun _ _ => Int.decLe _ _

instance : IsTotal StopTime seqLe := ⟨fun _ _ => Int.le_total _ _⟩

instance : IsTrans StopTime seqLe := ⟨fun _ _ _ => Int.le_trans⟩

/-- Order of the comparator
`(a, b) => a.departure_time.localeCompare(b.departure_time)`. -/
def depTimeLe (a b : StopTime) : Prop :=
  charListLe a.departure_time.data b.departure_time.data = true

instance : DecidableRel depTimeLe := fun _ _ => instDecidableEqBool _ _



instance : IsTotal StopTime depTimeLe :=
  ⟨fun a b => charListLe_total a.departure_time.data b.departure_time.data⟩

instance : IsTrans StopTime depTimeLe :=
  ⟨fun _ _ _ => charListLe_trans _ _ _⟩

inductive DelayStatus where
  | on_time
  | late
  | early
  | scheduled
deriving DecidableEq

structure UpcomingDeparture where
  trip_id : String
  route_short_name : String
  trip_headsign : String
  scheduled_departure : String
  estimated_departure : Option String
  delay_seconds : Option Int
  delay_status : DelayStatus
  route_color : String
deriving DecidableEq

/-- JavaScript `x || dflt` for an optional string `x`: an absent or empty
string falls back. -/
def jsOrStr (o : Option String) (dflt : String) : String :=
  match o with
  | some s => if s.data.isEmpty then dflt else s
  | none => dflt

/-- The stop-specific live update used for a departure row
(`gtfs-service.ts` lines 154-162): the optional chain
`realtimeUpdate?.stopTimeUpdate?.find(...)` over the suffix-matched trip
update. -/
def matchedStopUpdate (rt : GTFSRealtimeData) (stopId : String)
    (st : StopTime) : Option StopTimeUpdate :=
  (findTripUpdate st.trip_id rt.trip_updates).bind (fun u =>
    u.stopTimeUpdate.bind (fun l => findStopUpdate l stopId st.stop_sequence))

/-- The per-stop-time body of `getUpcomingDepartures` (`gtfs-service.ts`
lines 150-195): trip/route lookup, suffix trip-update match, stop-update
match, and the departure-only delay derivation. -/
def mkUpcomingDeparture (g : GTFSData) (rt : GTFSRealtimeData) (E : Int)
    (stopId : String) (st : StopTime) : UpcomingDeparture :=
  let trip := g.trips.find? (fun t => strEqB t.trip_id st.trip_id)
  let route := g.routes.find? (fun r =>
    match trip with
    | some t => strEqB r.route_id t.route_id
    | none => false)
  let stopUpdate := matchedStopUpdate rt stopId st
  let dep := stopUpdate.bind StopTimeUpdate.departure
  let estimatedDeparture :=
    match dep with
    | some ev =>
      match ev.time with
      | some t => if t ≠ 0 then some (unixTimestampToEasternTime t E) else none
      | none => none
    | none => none
  let delaySeconds :=
    match dep with
    | some ev => ev.delay
    | none => none
  let delayStatus :=
    match delaySeconds with
    | some d =>
      if d = 0 then DelayStatus.on_time
      else if d > 0 then DelayStatus.late
      else DelayStatus.early
    | none => DelayStatus.scheduled
  { trip_id := st.trip_id
    route_short_name := jsOrStr (route.map Route.route_short_name) "Unknown"
    trip_headsign := jsOrStr (trip.bind Trip.trip_headsign) "Unknown Destination"
    scheduled_departure := st.departure_time
    estimated_departure := estimatedDeparture
    delay_seconds := delaySeconds
    delay_status := delayStatus
    route_color := jsOrStr (route.bind Route.route_color) "666666" }

/-- `getUpcomingDepartures` (`gtfs-service.ts` lines 135-196) at instant
`nowSec` (epoch seconds) and Eastern offset `E`. -/
def getUpcomingDepartures (g : GTFSData) (rt : GTFSRealtimeData)
    (nowSec E : Int) (stopId : String) (limit : Nat) :
    List UpcomingDeparture :=
  let currentTimeStr := unixTimestampToEasternTime nowSec E
  let stopStopTimes :=
    (List.insertionSort depTimeLe
      ((g.stopTimes.filter (fun st => strEqB st.stop_id stopId)).filter
        (fun st => strLeB currentTimeStr st.departure_time))).take limit
  stopStopTimes.map (mkUpcomingDeparture g rt E stopId)

/-! Trip progress, after `calculateTripProgress` (`gtfs-service.ts` lines
286-349). -/

/-- Truthiness-and-comparison of
`stopUpdate?.departure?.time && stopUpdate.departure.time < now`. -/
def depTimeInPast (stu : Option StopTimeUpdate) (nowSec : Int) : Bool :=
  match stu with
  | some u =>
    match u.departure with
    | some e =>
      match e.time with
      | some t => (t != 0) && decide (t < nowSec)
      | none => false
    | none => false
  | none => false

/-- Truthiness-and-comparison of
`stopUpdate?.arrival?.time && stopUpdate.arrival.time < now`. -/
def arrTimeInPast (stu : Option StopTimeUpdate) (nowSec : Int) : Bool :=
  match stu with
  | some u =>
    match u.arrival with
    | some e =>
      match e.time with
      | some t => (t != 0) && decide (t < nowSec)
      | none => false
    | none => false
  | none => false

/-- The `for` loop of `calculateTripProgress` (lines 304-316): `i` is the
loop counter, `acc` the running `currentStopIndex`, `lastIdx` the bound
`tripStopTimes.length - 1`.  A departure in the past advances and continues;
otherwise an arrival in the past returns the current position (`break`). -/
def progressScanGo (updates : List StopTimeUpdate) (nowSec : Int)
    (lastIdx : Nat) : Nat → List StopTime → Nat → Nat
  | _, [], acc => acc
  | i, st :: rest, acc =>
    let stu := findStopUpdate updates st.stop_id st.stop_sequence
    if depTimeInPast stu nowSec then
      progressScanGo updates nowSec lastIdx (i + 1) rest (min (i + 1) lastIdx)
    else if arrTimeInPast stu nowSec then i
    else progressScanGo updates nowSec lastIdx (i + 1) rest acc

def progressScan (stopTimes : List StopTime) (updates : List StopTimeUpdate)
    (nowSec : Int) : Nat :=
  progressScanGo updates nowSec (stopTimes.length - 1) 0 stopTimes 0

/-- `Math.round(x)`: round half towards positive infinity. -/
def jsRound (q : ℚ) : Int := ⌊q + 1 / 2⌋

structure TripProgress where
  progress : Int
  currentStop : Option String
  nextStop : Option String
deriving DecidableEq

/-- `calculateTripProgress` (`gtfs-service.ts` lines 286-349) at instant
`nowSec` (epoch seconds). -/
def calculateTripProgress (tripId : String) (g : GTFSData)
    (rt : GTFSRealtimeData) (nowSec : Int) : Option TripProgress :=
  let tripStopTimes :=
    List.insertionSort seqLe
      (g.stopTimes.filter (fun st => strEqB st.trip_id tripId))
  if tripStopTimes.isEmpty then none
  else
    match findTripUpdate tripId rt.trip_updates with
    | none => none
    | some realtimeUpdate =>
      match realtimeUpdate.stopTimeUpdate with
      | none => none
      | some updates =>
        let currentStopIndex := progressScan tripStopTimes updates nowSec
        let currentStop := tripStopTimes.get? currentStopIndex
        let nextStopIndex :=
          min (currentStopIndex + 1) (tripStopTimes.length - 1)
        let nextStop := tripStopTimes.get? nextStopIndex
        let progress : ℚ :=
          match currentStop.bind StopTime.shape_distance_traveled,
              (tripStopTimes.get? 0).bind StopTime.shape_distance_traveled,
              (tripStopTimes.get? (tripStopTimes.length - 1)).bind
                StopTime.shape_distance_traveled with
          | some currentDistance, some startDistance, some lastDistance =>
            let totalDistance := lastDistance - startDistance
            if totalDistance > 0 then
              (currentDistance - startDistance) / totalDistance * 100
            else 0
          | _, _, _ =>
            ((currentStopIndex : ℚ) /
              ((max (tripStopTimes.length - 1) 1 : Nat) : ℚ)) * 100
        let currentStopName :=
          match currentStop with
          | some cs =>
            (g.stops.find? (fun s => strEqB s.stop_id cs.stop_id)).map
              Stop.stop_name
          | none => none
        let nextStopName :=
          match nextStop with
          | some ns =>
            (g.stops.find? (fun s => strEqB s.stop_id ns.stop_id)).map
              Stop.stop_name
          | none => none
        some ⟨jsRound (min progress 100),
              currentStopName,
              if currentStopIndex < tripStopTimes.length - 1 then nextStopName
              else currentStopName⟩

/-- The route-resolution `find` of `getRouteShape` (`gtfs-service.ts` lines
426-430): a single pass accepting either an exact `route_id` match or a
case-insensitive `route_short_name` match. -/
def findRouteForShape (g : GTFSData) (routeId : String) : Option Route :=
  g.routes.find? (fun r =>
    strEqB r.route_id routeId
    || strEqB (lowerStr r.route_short_name) (lowerStr routeId))

/-! Spec-side readings of the progress-index scan (§4.3 step 2), for
comparison against `progressScan`: a single forward pass with early exit,
formulated as a fold in `Except` (where `.error` carries the index produced
by the terminating arrival branch). -/

/-- Modelled from the spec: the scan as the claim reads it, with the
arrival-in-past check taking precedence over the departure-in-past check. -/
def scanStopsArrivalFirst (stopTimes : List StopTime)
    (updates : List StopTimeUpdate) (nowSec : Int) : Nat :=
  let lastIdx := stopTimes.length - 1
  match stopTimes.enum.foldlM (m := Except Nat) (fun acc p =>
      let stu := findStopUpdate updates p.2.stop_id p.2.stop_sequence
      if arrTimeInPast stu nowSec then Except.error p.1
      else if depTimeInPast stu nowSec then Except.ok (min (p.1 + 1) lastIdx)
      else Except.ok acc) 0 with
  | .ok acc => acc
  | .error i => i

/-- Modelled from the spec as amended: the same scan with the
departure-in-past check taking precedence, as the code's `if`/`else if`
ordering has it. -/
def scanStopsDepartureFirst (stopTimes : List StopTime)
    (updates : List StopTimeUpdate) (nowSec : Int) : Nat :=
  let lastIdx := stopTimes.length - 1
  match stopTimes.enum.foldlM (m := Except Nat) (fun acc p =>
      let stu := findStopUpdate updates p.2.stop_id p.2.stop_sequence
      if depTimeInPast stu nowSec then Except.ok (min (p.1 + 1) lastIdx)
      else if arrTimeInPast stu nowSec then Except.error p.1
      else Except.ok acc) 0 with
  | .ok acc => acc
  | .error i => i

/-- Modelled from the spec: the Eastern wall-clock `HH:MM` rendering of a
seconds-since-midnight value (used to state what §4.3 says the delay-only
branch should return). -/
def hmOfDaySeconds (s : Int) : String :=
  let v := (Int.fmod s 86400).toNat
  pad2 (v / 3600) ++ ":" ++ pad2 (v % 3600 / 60)

/-! Concrete fixtures used to instantiate the theorems below. -/

def emptyGTFS : GTFSData := ⟨[], [], [], [], [], [], []⟩

def emptyRT : GTFSRealtimeData := ⟨[], 0⟩

/-- A trip whose cumulative distances are not monotone (first stop 100,
second stop 50, last stop 200). -/
def c1StA : StopTime := ⟨"TRIP1", "10:00:00", "10:00:30", "A", 1, some 100⟩

def c1StB : StopTime := ⟨"TRIP1", "10:05:00", "10:05:30", "B", 2, some 50⟩

def c1StC : StopTime := ⟨"TRIP1", "10:10:00", "10:10:30", "C", 3, some 200⟩

/-- A live update reporting that the trip departed stop `A` at epoch
second 6. -/
def c1Upd : TripUpdate :=
  ⟨some ⟨some "TRIP1"⟩, some [⟨none, some "A", none, some ⟨some 6, none⟩⟩], none⟩

def c1G : GTFSData :=
  ⟨[], [],
   [⟨"A", none, "Stop A", "0", "0", none, none⟩,
    ⟨"B", none, "Stop B", "0", "0", none, none⟩,
    ⟨"C", none, "Stop C", "0", "0", none, none⟩],
   [], [c1StA, c1StB, c1StC], [], []⟩

def c1R : GTFSRealtimeData := ⟨[c1Upd], 0⟩

/-- A one-stop trip without distance data, exercising the index fallback. -/
def fbStop : StopTime := ⟨"T2", "09:00:00", "09:00:10", "X", 1, none⟩

def fbUpd : TripUpdate := ⟨some ⟨some "T2"⟩, some [], none⟩

def fbG : GTFSData := ⟨[], [], [], [], [fbStop], [], []⟩

def fbR : GTFSRealtimeData := ⟨[fbUpd], 0⟩

def c2St0 : StopTime := ⟨"T", "10:00:00", "10:00:30", "A", 1, none⟩

def c2St1 : StopTime := ⟨"T", "10:05:00", "10:05:30", "B", 2, none⟩

/-- A stop update for stop `A` with BOTH its arrival (second 5) and its
departure (second 6) in the past at `now = 100`. -/
def c2Upd : StopTimeUpdate :=
  ⟨none, some "A", some ⟨some 5, none⟩, some ⟨some 6, none⟩⟩

/-- An arrival update carrying only a zero delay offset. -/
def c3UpdZero : StopTimeUpdate := ⟨none, none, some ⟨none, some 0⟩, none⟩

/-- An arrival update carrying only a 60-second delay offset. -/
def c3UpdLate : StopTimeUpdate := ⟨none, none, some ⟨none, some 60⟩, none⟩

/-- A live update whose short trip id is the documented MTA suffix. -/
def mtaSuffixUpdate : TripUpdate := ⟨some ⟨some "128750_1..N03R"⟩, none, none⟩

def mtaNonSuffixUpdate : TripUpdate := ⟨some ⟨some "999"⟩, none, none⟩

def oneRouteGTFS : GTFSData := ⟨[], [⟨"QQ", "x", "Crosstown", "3", none, none⟩], [], [], [], [], []⟩

/-- A service running every day, valid through 2025-10-11 (Eastern). -/
def c8Cal : Calendar :=
  ⟨"S", "1", "1", "1", "1", "1", "1", "1", "19000101", "20251011"⟩

def c10RouteX : Route := ⟨"QQ", "x", "Crosstown", "3", none, none⟩

def c10RouteY : Route := ⟨"X", "y", "Yard", "3", none, none⟩

def c10G : GTFSData := ⟨[], [c10RouteX, c10RouteY], [], [], [], [], []⟩

def c9St : StopTime := ⟨"T9", "08:00:00", "08:00:30", "S9", 1, none⟩

/-- A live update for trip `T9` whose stop update carries only arrival
data (time 10, delay 120) and no departure sub-field. -/
def c9Upd : TripUpdate :=
  ⟨some ⟨some "T9"⟩, some [⟨none, some "S9", some ⟨some 10, some 120⟩, none⟩], none⟩

def c9RT : GTFSRealtimeData := ⟨[c9Upd], 0⟩

/-! Theorems. -/

/-- C5: as stated the claim fails at the TTL boundary: with a cached
snapshot and `now - lastLoadTime = ttl` (so NOT `< ttl`), the claim requires
a fresh load replacing the snapshot, but `ensureGTFSData` (whose reload test
is the strict `now - lastLoad > ttl`) returns the old snapshot and leaves
the cache fields unchanged. -/
theorem c5_counterexample :
    ensureGTFSData CACHE_DURATION oneRouteGTFS ⟨some emptyGTFS, 0⟩ =
      (emptyGTFS, ⟨some emptyGTFS, 0⟩)
    ∧ ¬(CACHE_DURATION - 0 < CACHE_DURATION)
    ∧ emptyGTFS ≠ oneRouteGTFS := by
  refine ⟨by decide, by decide, by decide⟩

/-- C5 (amended): each cache accessor returns the cached snapshot,
unchanged, when one exists and `now - lastLoadTime ≤ ttl`; it performs the
single fresh load, stores it with the new load time, and returns it when no
snapshot is cached or `now - lastLoadTime > ttl` (static ttl 5 minutes,
live ttl 30 seconds). -/
theorem c5_cache_refresh (nowMs : Int) (g : GTFSData) (r : GTFSRealtimeData)
    (sg : CacheState GTFSData) (sr : CacheState GTFSRealtimeData) :
    (∀ d, sg.data = some d → nowMs - sg.lastLoad ≤ CACHE_DURATION →
      ensureGTFSData nowMs g sg = (d, sg))
    ∧ (sg.data = none ∨ nowMs - sg.lastLoad > CACHE_DURATION →
      ensureGTFSData nowMs g sg = (g, ⟨some g, nowMs⟩))
    ∧ (∀ d, sr.data = some d → nowMs - sr.lastLoad ≤ REALTIME_CACHE_DURATION →
      ensureRealtimeData nowMs r sr = (d, sr))
    ∧ (sr.data = none ∨ nowMs - sr.lastLoad > REALTIME_CACHE_DURATION →
      ensureRealtimeData nowMs r sr = (r, ⟨some r, nowMs⟩)) := by
  refine ⟨?_, ?_, ?_, ?_⟩
  · intro d hd hle
    simp only [ensureGTFSData, ensureCached, hd]
    rw [if_neg (not_lt.mpr hle)]
  · rintro (hd | hgt)
    · simp only [ensureGTFSData, ensureCached, hd]
    · cases hd : sg.data with
      | none => simp only [ensureGTFSData, ensureCached, hd]
      | some d => simp only [ensureGTFSData, ensureCached, hd, if_pos hgt]
  · intro d hd hle
    simp only [ensureRealtimeData, ensureCached, hd]
    rw [if_neg (not_lt.mpr hle)]
  · rintro (hd | hgt)
    · simp only [ensureRealtimeData, ensureCached, hd]
    · cases hd : sr.data with
      | none => simp only [ensureRealtimeData, ensureCached, hd]
      | some d => simp only [ensureRealtimeData, ensureCached, hd, if_pos hgt]

/-- C5 witness: a call 1 second after a load within the 5-minute TTL returns
the cached snapshot and leaves the cache untouched. -/
theorem c5_cache_refresh_witness :
    ensureGTFSData 1000 oneRouteGTFS ⟨some emptyGTFS, 0⟩ =
      (emptyGTFS, ⟨some emptyGTFS, 0⟩) :=
  (c5_cache_refresh 1000 oneRouteGTFS emptyRT ⟨some emptyGTFS, 0⟩
    ⟨none, 0⟩).1 emptyGTFS rfl (by decide)

/-- C6: `fetchGTFSRealtimeData` never propagates a failure: a rejected
fetch, a non-ok HTTP status, or a decode failure each produce the snapshot
with an empty `trip_updates` list and `last_updated` set to the current
time. -/
theorem c6_live_loader_degrades {β : Type} (nowMs : Int)
    (fetchResult : Except Unit (HttpResponse β))
    (decodeFeed : β → Except Unit FeedMessage) :
    (fetchResult = Except.error () →
      fetchGTFSRealtimeData nowMs fetchResult decodeFeed = ⟨[], nowMs⟩)
    ∧ (∀ resp, fetchResult = Except.ok resp → resp.ok = false →
      fetchGTFSRealtimeData nowMs fetchResult decodeFeed = ⟨[], nowMs⟩)
    ∧ (∀ resp, fetchResult = Except.ok resp →
      decodeFeed resp.buffer = Except.error () →
      fetchGTFSRealtimeData nowMs fetchResult decodeFeed = ⟨[], nowMs⟩) := by
  refine ⟨?_, ?_, ?_⟩
  · intro h; rw [h]; rfl
  · intro resp h hok
    rw [h]
    simp only [fetchGTFSRealtimeData, hok, if_pos]
  · intro resp h hdec
    rw [h]
    cases hok : resp.ok with
    | false => simp only [fetchGTFSRealtimeData, hok, if_pos]
    | true => simp only [fetchGTFSRealtimeData, hok, hdec, if_neg, Bool.true_eq_false,
        not_false_eq_true]

/-- C6 witness: a rejected fetch at time 5 degrades to the empty feed
stamped 5. -/
theorem c6_live_loader_degrades_witness :
    fetchGTFSRealtimeData (β := Unit) 5 (Except.error ())
      (fun _ => Except.error ()) = ⟨[], 5⟩ :=
  (c6_live_loader_degrades 5 (Except.error ()) (fun _ => Except.error ())).1 rfl

/-- C8: the result is NOT host-independent: at the same instant
(2025-10-11 23:30 Eastern, EDT offset -4h) a UTC host computes the Eastern
date 20251011 (inside the calendar window, service active) while a host at
UTC-4 computes 20251012 (outside the window, service inactive), because
`toISOString` reads UTC fields of the re-parsed local-time `Date`. -/
theorem c8_counterexample :
    isServiceActiveTodayEastern (20372 * 86400 + 84600 + 14400) (-14400) 0
        c8Cal = true
    ∧ isServiceActiveTodayEastern (20372 * 86400 + 84600 + 14400) (-14400)
        (-14400) c8Cal = false := by
  refine ⟨by decide, by decide⟩

/-- C8 (amended): the day-of-week input is host-independent, and two runs at
the same instant under different host offsets agree whenever the two
re-parsed instants fall on the same UTC day; in general the date checked
against the calendar window is the Eastern wall clock shifted by the host
offset, so hosts disagreeing on that day can disagree on the result. -/
theorem c8_eastern_host_date (t E H1 H2 : Int) (c : Calendar)
    (hdate : Int.fdiv (t + E - H1) 86400 = Int.fdiv (t + E - H2) 86400) :
    isServiceActiveTodayEastern t E H1 c =
      isServiceActiveTodayEastern t E H2 c := by
  simp only [isServiceActiveTodayEastern]
  have h1 : t + E - H1 + H1 = t + E := by ring
  have h2 : t + E - H2 + H2 = t + E := by ring
  rw [h1, h2, hdate]

/-- C8 witness: at noon UTC the UTC host and a UTC+1 host compute the same
day, hence the same activity bit. -/
theorem c8_eastern_host_date_witness :
    isServiceActiveTodayEastern 43200 0 0 c8Cal =
      isServiceActiveTodayEastern 43200 0 3600 c8Cal :=
  c8_eastern_host_date 43200 0 0 3600 c8Cal (by decide)

/-- C3: as stated the claim fails twice over: an arrival update carrying
only the delay offset 0 falls through the truthiness test and yields
`isRealtime = false` with the scheduled time verbatim; and with a nonzero
delay the sum is rendered through the HOST clock (no `timeZone` option), so
a host at UTC-5 renders scheduled 12:00:00 + 60s as "07:01" where the
Eastern rendering of the sum is "12:01". -/
theorem c3_counterexample :
    (getRealtimeArrivalTime "12:00:00" (some c3UpdZero) 0).isRealtime = false
    ∧ getRealtimeArrivalTime "12:00:00" (some c3UpdLate) (-18000) =
        ⟨"07:01", some "1m 0s late", true⟩
    ∧ hmOfDaySeconds (43200 + 60) = "12:01" := by
  refine ⟨by decide, by decide, by decide⟩

/-- C3 (amended): for an arrival update carrying only a NONZERO delay
offset, `getRealtimeArrivalTime` adds the delay to the scheduled
seconds-since-midnight and renders the sum through the host clock
(`isRealtime = true`, delay formatted); the rendering coincides with the
Eastern wall clock of the sum exactly on a zero-offset (UTC) host; a zero
delay offset returns the scheduled time verbatim with
`isRealtime = false`. -/
theorem c3_delay_only_realtime (sched : String) (secs : Int)
    (hp : parseHMS sched = some secs) (su : StopTimeUpdate) (d H : Int)
    (harr : su.arrival = some ⟨none, some d⟩) :
    (d ≠ 0 → getRealtimeArrivalTime sched (some su) H =
      ⟨jsLocalTimeHM (secs + d) H, some (formatDelay d), true⟩)
    ∧ (d = 0 → getRealtimeArrivalTime sched (some su) H = ⟨sched, none, false⟩)
    ∧ jsLocalTimeHM (secs + d) 0 = hmOfDaySeconds (secs + d) := by
  refine ⟨?_, ?_, ?_⟩
  · intro hd
    simp only [getRealtimeArrivalTime, harr, arrivalDelayBranch, hp, if_pos hd]
  · intro hd
    subst hd
    simp only [getRealtimeArrivalTime, harr, arrivalDelayBranch]
    rw [if_neg (by simp)]
  · simp [jsLocalTimeHM, hmOfDaySeconds]

/-- C3 witness: on the zero-offset host, scheduled 12:00:00 plus a
60-second delay renders as "12:01" with `isRealtime = true`. -/
theorem c3_delay_only_realtime_witness :
    getRealtimeArrivalTime "12:00:00" (some c3UpdLate) 0 =
      ⟨"12:01", some "1m 0s late", true⟩ :=
  ((c3_delay_only_realtime "12:00:00" 43200 (by decide) c3UpdLate 60 0
    rfl).1 (by decide)).trans (by decide)

/-- C2: as stated the claim fails: for a stop whose live arrival AND
departure are both in the past, the code's `if`/`else if` runs the
departure branch (advance to the next stop and keep scanning, yielding
index 1), while the claim's arrival-takes-precedence reading would stop at
that stop (index 0). -/
theorem c2_counterexample :
    progressScan [c2St0, c2St1] [c2Upd] 100 = 1
    ∧ scanStopsArrivalFirst [c2St0, c2St1] [c2Upd] 100 = 0 := by
  refine ⟨by decide, by decide⟩

/-- The loop of `calculateTripProgress` agrees with the fold-with-early-exit
formulation, departure branch first. -/
theorem progressScanGo_eq_foldlM (updates : List StopTimeUpdate)
    (nowSec : Int) (lastIdx : Nat) : ∀ (rest : List StopTime) (i acc : Nat),
    progressScanGo updates nowSec lastIdx i rest acc =
      (match (rest.enumFrom i).foldlM (m := Except Nat) (fun a p =>
          let stu := findStopUpdate updates p.2.stop_id p.2.stop_sequence
          if depTimeInPast stu nowSec then Except.ok (min (p.1 + 1) lastIdx)
          else if arrTimeInPast stu nowSec then Except.error p.1
          else Except.ok a) acc with
       | .ok a => a
       | .error j => j) := by
  intro rest
  induction rest with
  | nil => intro i acc; rfl
  | cons st tail ih =>
    intro i acc
    simp only [progressScanGo, List.enumFrom, List.foldlM_cons]
    by_cases hdep :
        depTimeInPast (findStopUpdate updates st.stop_id st.stop_sequence)
          nowSec = true
    · simp only [hdep, if_true, ih]
      rfl
    · simp only [hdep, if_false, Bool.false_ne_true]
      by_cases harr :
          arrTimeInPast (findStopUpdate updates st.stop_id st.stop_sequence)
            nowSec = true
      · simp only [harr, if_true]
        rfl
      · simp only [harr, if_false, Bool.false_ne_true, ih]
        rfl

/-- C2 (amended): the scan is the claimed single forward pass with a
terminating arrival branch, but with the DEPARTURE check taking precedence:
a stop with its live departure in the past always advances the index
(bounded at the last stop) and continues, and only a stop whose departure
is absent or not in the past and whose live arrival is in the past sets the
index to that stop and stops the scan. -/
theorem c2_scan_departure_first (stopTimes : List StopTime)
    (updates : List StopTimeUpdate) (nowSec : Int) :
    progressScan stopTimes updates nowSec =
      scanStopsDepartureFirst stopTimes updates nowSec := by
  unfold progressScan scanStopsDepartureFirst
  rw [progressScanGo_eq_foldlM]
  rfl

/-- Every successful `find?` splits its list at the first match. -/
theorem find?_first_split {α : Type} (p : α → Bool) :
    ∀ (l : List α) (a : α), l.find? p = some a →
      p a = true ∧ ∃ pre post, l = pre ++ a :: post ∧
        ∀ v ∈ pre, p v = false := by
  intro l
  induction l with
  | nil => intro a h; simp [List.find?] at h
  | cons x xs ih =>
    intro a h
    cases hpx : p x with
    | true =>
      rw [List.find?_cons_of_pos _ hpx] at h
      obtain rfl : x = a := by simpa using h
      exact ⟨hpx, [], xs, rfl, by simp⟩
    | false =>
      rw [List.find?_cons_of_neg _ (by simp [hpx])] at h
      obtain ⟨hpa, pre, post, rfl, hpre⟩ := ih a h
      refine ⟨hpa, x :: pre, post, rfl, ?_⟩
      intro v hv
      rcases List.mem_cons.mp hv with rfl | hv2
      · exact hpx
      · exact hpre v hv2

/-- C4: trip-update matching returns the first update in feed order whose
trip identifier is a non-empty suffix of the static trip id (exact equality
being the improper suffix), and no match exactly when no update qualifies;
in particular the live id "128750_1..N03R" matches the static id
"ASP25GEN-1038-Sunday-00_128750_1..N03R" and "999" does not match
"128750_1..N03R". -/
theorem c4_trip_suffix_matching (staticTripId : String)
    (updates : List TripUpdate) :
    (findTripUpdate staticTripId updates = none ↔
      ∀ u ∈ updates, tripMatches staticTripId u = false)
    ∧ (∀ u, findTripUpdate staticTripId updates = some u →
        tripMatches staticTripId u = true ∧
        ∃ pre post, updates = pre ++ u :: post ∧
          ∀ v ∈ pre, tripMatches staticTripId v = false)
    ∧ (∀ u, tripMatches staticTripId u = true ↔
        ∃ dsc tid, u.trip = some dsc ∧ dsc.tripId = some tid ∧
          tid.data ≠ [] ∧ tid.data <:+ staticTripId.data)
    ∧ findTripUpdate "ASP25GEN-1038-Sunday-00_128750_1..N03R"
        [mtaSuffixUpdate] = some mtaSuffixUpdate
    ∧ findTripUpdate "128750_1..N03R" [mtaNonSuffixUpdate] = none := by
  refine ⟨?_, ?_, ?_, by decide, by decide⟩
  · unfold findTripUpdate
    rw [List.find?_eq_none]
    constructor
    · intro h u hu
      simpa using h u hu
    · intro h u hu
      simp [h u hu]
  · intro u h
    exact find?_first_split _ updates u h
  · intro u
    cases hu : u.trip with
    | none => simp [tripMatches, hu]
    | some dsc =>
      cases htid : dsc.tripId with
      | none => simp [tripMatches, hu, htid]
      | some tid =>
        simp only [tripMatches, hu, htid, Bool.and_eq_true, Bool.not_eq_true',
          Option.some.injEq]
        constructor
        · rintro ⟨hne, hsuf⟩
          refine ⟨dsc, tid, rfl, htid, fun hnil => ?_,
            (strEndsWith_iff _ _).mp hsuf⟩
          rw [hnil] at hne
          simp at hne
        · rintro ⟨dsc2, tid2, hd2, ht2, hne, hsuf⟩
          subst hd2
          rw [htid] at ht2
          obtain rfl : tid = tid2 := by injection ht2
          constructor
          · cases hdata : tid.data with
            | nil => exact absurd hdata hne
            | cons a l2 => rfl
          · exact (strEndsWith_iff _ _).mpr hsuf

/-- C4 witness: on an empty feed no update matches, per the none-direction
of the characterization. -/
theorem c4_trip_suffix_matching_witness :
    findTripUpdate "ASP25GEN-1038-Sunday-00_128750_1..N03R" [] = none :=
  (c4_trip_suffix_matching "ASP25GEN-1038-Sunday-00_128750_1..N03R" []).1.mpr
    (by simp)

/-- C10: as stated the claim fails: with routes `⟨id "QQ", short "x"⟩` then
`⟨id "X", short "y"⟩`, the single-pass OR predicate resolves query "X" (the
second route's exact id) to the FIRST route via its case-insensitive short
name, while query "Y" (a case variant of the second route's short name)
resolves to the second route — so a short-name variant and the route id
select different routes. -/
theorem c10_counterexample :
    c10RouteY ∈ c10G.routes
    ∧ lowerStr "Y" = lowerStr c10RouteY.route_short_name
    ∧ findRouteForShape c10G "Y" = some c10RouteY
    ∧ findRouteForShape c10G c10RouteY.route_id = some c10RouteX
    ∧ c10RouteX ≠ c10RouteY := by
  refine ⟨by decide, by decide, by decide, by decide, by decide⟩

/-- Two case-variant queries drive the route-resolution predicate the same
way on every route whose id matches neither query. -/
theorem routeFind_congr (q1 q2 : String) (hq : lowerStr q1 = lowerStr q2) :
    ∀ l : List Route,
    (∀ r ∈ l, strEqB r.route_id q1 = false ∧ strEqB r.route_id q2 = false) →
    List.find? (fun r => strEqB r.route_id q1
      || strEqB (lowerStr r.route_short_name) (lowerStr q1)) l
    = List.find? (fun r => strEqB r.route_id q2
      || strEqB (lowerStr r.route_short_name) (lowerStr q2)) l := by
  intro l
  induction l with
  | nil => intro _; rfl
  | cons r rs ih =>
    intro hid
    have hr := hid r (by simp)
    have hpred : (strEqB r.route_id q1
        || strEqB (lowerStr r.route_short_name) (lowerStr q1))
        = (strEqB r.route_id q2
        || strEqB (lowerStr r.route_short_name) (lowerStr q2)) := by
      rw [hr.1, hr.2, hq]
    cases hb : (strEqB r.route_id q2
        || strEqB (lowerStr r.route_short_name) (lowerStr q2)) with
    | true => simp only [List.find?, hpred, hb]
    | false =>
      simp only [List.find?, hpred, hb]
      exact ih (fun x hx => hid x (by simp [hx]))

/-- C10 (amended): route resolution is one pass over the routes returning
the first satisfying exact-id OR case-insensitive-short-name; two queries
that are case variants of each other resolve identically PROVIDED no
route id equals either query exactly — the exact-id disjunct is
case-sensitive, and an earlier short-name match can shadow a later exact-id
match. -/
theorem c10_route_resolution (g : GTFSData) (q1 q2 : String)
    (hq : lowerStr q1 = lowerStr q2)
    (hid : ∀ r ∈ g.routes,
      strEqB r.route_id q1 = false ∧ strEqB r.route_id q2 = false) :
    findRouteForShape g q1 = findRouteForShape g q2 := by
  unfold findRouteForShape
  exact routeFind_congr q1 q2 hq g.routes hid

/-- C10 witness: the queries "y" and "Y" resolve to the same route in the
two-route snapshot, no route id equalling either. -/
theorem c10_route_resolution_witness :
    findRouteForShape c10G "y" = findRouteForShape c10G "Y" :=
  c10_route_resolution c10G "y" "Y" (by decide) (by decide)

/-- C7: `getUpcomingDepartures` returns at most `limit` entries, each coming
from a stop-time of the requested stop whose scheduled departure string is
at least the current Eastern wall-clock string, and the entries are sorted
by scheduled departure ascending. -/
theorem c7_upcoming_departures (g : GTFSData) (rt : GTFSRealtimeData)
    (nowSec E : Int) (stopId : String) (limit : Nat) :
    (getUpcomingDepartures g rt nowSec E stopId limit).length ≤ limit
    ∧ (∀ d ∈ getUpcomingDepartures g rt nowSec E stopId limit,
        ∃ st, st ∈ g.stopTimes ∧ st.stop_id = stopId ∧
          d.trip_id = st.trip_id ∧ d.scheduled_departure = st.departure_time ∧
          strLeB (unixTimestampToEasternTime nowSec E)
            d.scheduled_departure = true)
    ∧ List.Sorted (fun a b : UpcomingDeparture =>
        charListLe a.scheduled_departure.data b.scheduled_departure.data
          = true)
        (getUpcomingDepartures g rt nowSec E stopId limit) := by
  refine ⟨?_, ?_, ?_⟩
  · simp only [getUpcomingDepartures, List.length_map, List.length_take]
    exact min_le_left _ _
  · intro d hd
    simp only [getUpcomingDepartures, List.mem_map] at hd
    obtain ⟨st, hst, rfl⟩ := hd
    have hst2 : st ∈ List.insertionSort depTimeLe
        ((g.stopTimes.filter fun s => strEqB s.stop_id stopId).filter
          fun s => strLeB (unixTimestampToEasternTime nowSec E)
            s.departure_time) :=
      (List.take_sublist _ _).subset hst
    have hst3 := (List.perm_insertionSort depTimeLe _).subset hst2
    rw [List.mem_filter] at hst3
    obtain ⟨hst4, hle⟩ := hst3
    rw [List.mem_filter] at hst4
    obtain ⟨hmem, hid⟩ := hst4
    exact ⟨st, hmem, (strEqB_iff _ _).mp hid, rfl, rfl, hle⟩
  · simp only [getUpcomingDepartures]
    refine List.Pairwise.map _ (fun a b hab => hab) ?_
    exact List.Pairwise.sublist (List.take_sublist _ _)
      (List.sorted_insertionSort depTimeLe _)

/-- C7 witness: on the empty snapshot the departure list is within the
limit. -/
theorem c7_upcoming_departures_witness :
    (getUpcomingDepartures emptyGTFS emptyRT 0 0 "S" 5).length ≤ 5 :=
  (c7_upcoming_departures emptyGTFS emptyRT 0 0 "S" 5).1

/-- C9: in every departure entry, `delay_seconds`/`delay_status` come only
from the departure sub-field of the matched stop update (no matched update,
an arrival-only update, or a departure without a delay field all yield
status `scheduled` with no delay), and `estimated_departure` is set only
when the departure sub-field carries a truthy absolute time; every entry of
`getUpcomingDepartures` is produced by this per-stop-time body. -/
theorem c9_delay_from_departure_only (g : GTFSData) (rt : GTFSRealtimeData)
    (nowSec E : Int) (stopId : String) (st : StopTime) (limit : Nat) :
    (matchedStopUpdate rt stopId st = none →
      (mkUpcomingDeparture g rt E stopId st).delay_status
          = DelayStatus.scheduled
      ∧ (mkUpcomingDeparture g rt E stopId st).delay_seconds = none
      ∧ (mkUpcomingDeparture g rt E stopId st).estimated_departure = none)
    ∧ (∀ u, matchedStopUpdate rt stopId st = some u → u.departure = none →
      (mkUpcomingDeparture g rt E stopId st).delay_status
          = DelayStatus.scheduled
      ∧ (mkUpcomingDeparture g rt E stopId st).delay_seconds = none
      ∧ (mkUpcomingDeparture g rt E stopId st).estimated_departure = none)
    ∧ (∀ u ev, matchedStopUpdate rt stopId st = some u →
      u.departure = some ev →
      (mkUpcomingDeparture g rt E stopId st).delay_seconds = ev.delay
      ∧ (ev.delay = none →
        (mkUpcomingDeparture g rt E stopId st).delay_status
          = DelayStatus.scheduled))
    ∧ (∀ s,
      (mkUpcomingDeparture g rt E stopId st).estimated_departure = some s →
      ∃ u ev t, matchedStopUpdate rt stopId st = some u ∧
        u.departure = some ev ∧ ev.time = some t ∧ t ≠ 0 ∧
        s = unixTimestampToEasternTime t E)
    ∧ (∀ e ∈ getUpcomingDepartures g rt nowSec E stopId limit,
      ∃ st2, e = mkUpcomingDeparture g rt E stopId st2) := by
  refine ⟨?_, ?_, ?_, ?_, ?_⟩
  · intro hmu
    simp [mkUpcomingDeparture, hmu]
  · intro u hmu hdep
    simp [mkUpcomingDeparture, hmu, hdep]
  · intro u ev hmu hdep
    refine ⟨by simp [mkUpcomingDeparture, hmu, hdep], ?_⟩
    intro hd
    simp [mkUpcomingDeparture, hmu, hdep, hd]
  · intro s hs
    rcases hmu : matchedStopUpdate rt stopId st with _ | u
    · simp [mkUpcomingDeparture, hmu] at hs
    · rcases hdep : u.departure with _ | ev
      · simp [mkUpcomingDeparture, hmu, hdep] at hs
      · rcases htime : ev.time with _ | t
        · simp [mkUpcomingDeparture, hmu, hdep, htime] at hs
        · by_cases ht0 : t = 0
          · simp [mkUpcomingDeparture, hmu, hdep, htime, ht0] at hs
          · simp only [mkUpcomingDeparture, hmu, Option.some_bind, hdep,
              htime, if_pos ht0, Option.some.injEq] at hs
            exact ⟨u, ev, t, rfl, hdep, htime, ht0, hs.symm⟩
  · intro e he
    simp only [getUpcomingDepartures, List.mem_map] at he
    obtain ⟨st2, _, rfl⟩ := he
    exact ⟨st2, rfl⟩

/-- C9 witness: for the trip whose matched stop update carries only arrival
data, the departure entry reports status `scheduled` with no delay and no
estimate. -/
theorem c9_delay_from_departure_only_witness :
    (mkUpcomingDeparture emptyGTFS c9RT 0 "S9" c9St).delay_status
        = DelayStatus.scheduled
    ∧ (mkUpcomingDeparture emptyGTFS c9RT 0 "S9" c9St).delay_seconds = none
    ∧ (mkUpcomingDeparture emptyGTFS c9RT 0 "S9" c9St).estimated_departure
        = none :=
  (c9_delay_from_departure_only emptyGTFS c9RT 0 0 "S9" c9St 5).2.1
    ⟨none, some "S9", some ⟨some 10, some 120⟩, none⟩ (by decide) rfl

/-- The progress loop never yields an index above `lastIdx`. -/
theorem progressScanGo_le (updates : List StopTimeUpdate) (nowSec : Int)
    (lastIdx : Nat) : ∀ (rest : List StopTime) (i acc : Nat),
    acc ≤ lastIdx → i + rest.length ≤ lastIdx + 1 →
    progressScanGo updates nowSec lastIdx i rest acc ≤ lastIdx := by
  intro rest
  induction rest with
  | nil => intro i acc hacc _; exact hacc
  | cons st tail ih =>
    intro i acc hacc hlen
    simp only [List.length_cons] at hlen
    simp only [progressScanGo]
    by_cases hdep : depTimeInPast
        (findStopUpdate updates st.stop_id st.stop_sequence) nowSec = true
    · rw [if_pos hdep]
      exact ih (i + 1) _ (Nat.min_le_right _ _) (by omega)
    · rw [if_neg hdep]
      by_cases harr : arrTimeInPast
          (findStopUpdate updates st.stop_id st.stop_sequence) nowSec = true
      · rw [if_pos harr]
        omega
      · rw [if_neg harr]
        exact ih (i + 1) acc hacc (by omega)

/-- The current-stop index stays within the trip. -/
theorem progressScan_le (stopTimes : List StopTime)
    (updates : List StopTimeUpdate) (nowSec : Int) (h : stopTimes ≠ []) :
    progressScan stopTimes updates nowSec ≤ stopTimes.length - 1 := by
  have hpos : 0 < stopTimes.length := List.length_pos.mpr h
  exact progressScanGo_le updates nowSec _ stopTimes 0 0 (Nat.zero_le _)
    (by omega)

theorem jsRound_le_of_le {a b : ℚ} (h : a ≤ b) : jsRound a ≤ jsRound b :=
  Int.floor_le_floor (by linarith)

theorem jsRound_hundred : jsRound 100 = 100 := by
  unfold jsRound
  norm_num

theorem jsRound_nonneg {q : ℚ} (h : 0 ≤ q) : 0 ≤ jsRound q := by
  unfold jsRound
  exact Int.le_floor.mpr (by push_cast; linarith)

/-- C1: as stated the claim fails: the distance-based value is only clamped
from ABOVE (`Math.round(Math.min(progress, 100))`), so with non-monotone
cumulative distances (first stop 100, current stop 50, last stop 200, after
the first stop's departure passed) `calculateTripProgress` returns a
progress of -50, outside [0,100]. -/
theorem c1_counterexample :
    calculateTripProgress "TRIP1" c1G c1R 100 =
      some ⟨-50, some "Stop B", some "Stop C"⟩
    ∧ ¬(0 ≤ (-50 : Int)) := by
  constructor
  · simp +decide [calculateTripProgress, c1G, c1R, c1StA, c1StB, c1StC,
      c1Upd, progressScan, progressScanGo, findTripUpdate, findStopUpdate,
      tripMatches, strEqB, strEndsWith, List.insertionSort,
      List.orderedInsert, List.filter, List.find?, depTimeInPast,
      arrTimeInPast, seqLe, List.isSuffixOf, List.isPrefixOf]
    norm_num [jsRound]
  · decide

/-- C1 (amended): the returned progress never exceeds 100, and it lies in
[0,100] whenever the trip's cumulative distances are monotone along the
stop sequence (which GTFS data guarantees but the code does not enforce):
the index fallback is intrinsically within range, while the distance branch
is clamped only from above and needs `startDistance ≤ currentDistance` for
the lower bound. -/
theorem c1_progress_within_bounds (tripId : String) (g : GTFSData)
    (rt : GTFSRealtimeData) (nowSec : Int) (p : TripProgress)
    (hres : calculateTripProgress tripId g rt nowSec = some p) :
    p.progress ≤ 100
    ∧ ((∀ st st2, st ∈ g.stopTimes → st2 ∈ g.stopTimes →
      strEqB st.trip_id tripId = true → strEqB st2.trip_id tripId = true →
      st.stop_sequence ≤ st2.stop_sequence →
      ∀ d d2, st.shape_distance_traveled = some d →
        st2.shape_distance_traveled = some d2 → d ≤ d2) →
      0 ≤ p.progress) := by
  simp only [calculateTripProgress] at hres
  set L := List.insertionSort seqLe
    (g.stopTimes.filter fun st => strEqB st.trip_id tripId) with hLdef
  by_cases hemp : L.isEmpty
  · rw [if_pos hemp] at hres
    simp at hres
  · rw [if_neg hemp] at hres
    rcases hft : findTripUpdate tripId rt.trip_updates with _ | ru
    · rw [hft] at hres
      simp at hres
    · simp only [hft] at hres
      rcases hstu : ru.stopTimeUpdate with _ | updates
      · simp only [hstu] at hres
        exact absurd hres (by simp)
      · simp only [hstu, Option.some.injEq] at hres
        subst hres
        have hLne : L ≠ [] := by
          intro hnil
          rw [hnil] at hemp
          exact hemp rfl
        have hlen : 0 < L.length := List.length_pos.mpr hLne
        set idx := progressScan L updates nowSec with hidxdef
        have hidxle : idx ≤ L.length - 1 :=
          progressScan_le L updates nowSec hLne
        have hidxlt : idx < L.length := by omega
        refine ⟨le_of_le_of_eq (jsRound_le_of_le (min_le_right _ 100))
          jsRound_hundred, ?_⟩
        intro hmono
        have hQ : 0 ≤ (match
            (L.get? idx).bind StopTime.shape_distance_traveled,
            (L.get? 0).bind StopTime.shape_distance_traveled,
            (L.get? (L.length - 1)).bind StopTime.shape_distance_traveled
            with
          | some currentDistance, some startDistance, some lastDistance =>
            if lastDistance - startDistance > 0 then
              (currentDistance - startDistance) /
                (lastDistance - startDistance) * 100
            else 0
          | _, _, _ =>
            ((idx : ℚ) / ((max (L.length - 1) 1 : Nat) : ℚ)) * 100) := by
          rcases hd1 : (L.get? idx).bind StopTime.shape_distance_traveled
            with _ | cur
          · positivity
          · rcases hd2 : (L.get? 0).bind StopTime.shape_distance_traveled
              with _ | start0
            · positivity
            · rcases hd3 : (L.get? (L.length - 1)).bind
                  StopTime.shape_distance_traveled with _ | last0
              · positivity
              · dsimp only
                by_cases htot : last0 - start0 > 0
                · rw [if_pos htot]
                  have h0g : L.get? 0 = some (L.get ⟨0, hlen⟩) :=
                    List.get?_eq_get hlen
                  have hcg : L.get? idx = some (L.get ⟨idx, hidxlt⟩) :=
                    List.get?_eq_get hidxlt
                  rw [h0g, Option.some_bind] at hd2
                  rw [hcg, Option.some_bind] at hd1
                  have hsorted : List.Sorted seqLe L :=
                    hLdef ▸ List.sorted_insertionSort seqLe _
                  have hseq : seqLe (L.get ⟨0, hlen⟩) (L.get ⟨idx, hidxlt⟩) := by
                    rcases Nat.eq_zero_or_pos idx with hz | hpos
                    · have hfin : (⟨idx, hidxlt⟩ : Fin L.length) = ⟨0, hlen⟩ :=
                        Fin.ext hz
                      rw [hfin]
                      exact le_refl _
                    · exact List.pairwise_iff_get.mp hsorted
                        ⟨0, hlen⟩ ⟨idx, hidxlt⟩ (Fin.mk_lt_mk.mpr hpos)
                  have hm0 : L.get ⟨0, hlen⟩ ∈ L := List.get_mem L 0 hlen
                  have hmc : L.get ⟨idx, hidxlt⟩ ∈ L :=
                    List.get_mem L idx hidxlt
                  have hm0f := (hLdef ▸ List.perm_insertionSort seqLe
                    (g.stopTimes.filter fun st =>
                      strEqB st.trip_id tripId)).subset hm0
                  have hmcf := (hLdef ▸ List.perm_insertionSort seqLe
                    (g.stopTimes.filter fun st =>
                      strEqB st.trip_id tripId)).subset hmc
                  rw [List.mem_filter] at hm0f hmcf
                  have hle : start0 ≤ cur :=
                    hmono (L.get ⟨0, hlen⟩) (L.get ⟨idx, hidxlt⟩)
                      hm0f.1 hmcf.1 hm0f.2 hmcf.2 hseq start0 cur hd2 hd1
                  have := sub_nonneg.mpr hle
                  positivity
                · rw [if_neg htot]
        exact jsRound_nonneg (le_min hQ (by norm_num))

/-- C1 witness: the one-stop distance-free trip yields a progress of 0,
which the unconditional conjunct bounds by 100 and, the monotonicity
hypothesis holding vacuously, the conditional conjunct bounds by 0. -/
theorem c1_progress_within_bounds_witness :
    (⟨0, none, none⟩ : TripProgress).progress ≤ 100
    ∧ 0 ≤ (⟨0, none, none⟩ : TripProgress).progress := by
  have hres : calculateTripProgress "T2" fbG fbR 100 =
      some ⟨0, none, none⟩ := by
    simp +decide [calculateTripProgress, fbG, fbR, fbStop, fbUpd,
      progressScan, progressScanGo, findTripUpdate, findStopUpdate,
      tripMatches, strEqB, strEndsWith, List.insertionSort,
      List.orderedInsert, List.filter, List.find?, depTimeInPast,
      arrTimeInPast, seqLe, List.isSuffixOf, List.isPrefixOf]
    norm_num [jsRound]
  have h := c1_progress_within_bounds "T2" fbG fbR 100 ⟨0, none, none⟩ hres
  refine ⟨h.1, h.2 ?_⟩
  intro st st2 h1 _ _ _ _ d d2 hd _
  have hst : st = fbStop := by simpa [fbG] using h1
  rw [hst] at hd
  simp [fbStop] at hd

end MtaGtfs
